import Mathlib

/-!
Verification of the DrainGuard drainage-monitor firmware sketches.

The repository holds two Arduino/ESP32 sketches:

* `src/DG_AI/hardware/esp32_code/main.ino` — the main firmware: trigger an
  ultrasonic ping, measure the echo with `pulseIn`, convert to centimeters
  with `distance_cm = duration * 0.034 / 2`, read the analog gas pin,
  classify against the literal thresholds 10 / 100 / 2500, and print a
  human-readable record over serial every 2000 ms.
* `src/unnamed/part_000` — two alternate sketches; the first reports a single
  boolean `anomalyDetected` (distance below 30 or gas above 400) in a JSON
  document, the second recomputes `distance = (duration * 0.034) / 2` into a
  `long`.

Floating-point values are embedded as exact rationals (`ℚ`), machine integers
as `ℤ`/`ℕ`; the serial side effects of one `loop` pass are embedded as an
explicit list of `FwAction`s.  The spec additionally describes a MedianFilter
and an ExponentialSmoother that appear nowhere in the repository's code;
those two components are modelled from the spec text and marked as such.
-/

/-! ### Embedding of `main.ino` -/

def TRIG_PIN : ℕ := 5

def ECHO_PIN : ℕ := 18

def GAS_PIN : ℕ := 34

/-- Arduino `pulseIn(ECHO_PIN, HIGH)` (main.ino line 29): the width of the
echo pulse in microseconds.  The environment is passed explicitly as an
`Option ℕ`: `some d` means an echo pulse of duration `d` µs completed,
`none` means no pulse completed within `pulseIn`'s timeout, in which case
the Arduino routine returns `0`. -/
def pulseIn (echo : Option ℕ) : ℕ := echo.getD 0

/-- main.ino line 30: `distance_cm = duration * 0.034 / 2;` with the float
arithmetic embedded exactly over `ℚ`. -/
def distance_cm (duration : ℕ) : ℚ := (duration : ℚ) * 0.034 / 2

/-- The spec's ThresholdConfig (§3): distance low/high bounds and the gas
high bound.  In `main.ino` these are the literals 10, 100 and 2500; see
`mainThresholds`. -/
structure ThresholdConfig where
  low_threshold : ℚ
  high_threshold : ℚ
  gas_threshold : ℤ
deriving DecidableEq

/-- The literal thresholds of `main.ino` lines 38, 41 and 45. -/
def mainThresholds : ThresholdConfig := ⟨10, 100, 2500⟩

/-- The anomaly logic of `main.ino` `loop` (lines 36–47), with the three
literal thresholds abstracted into a `ThresholdConfig`.  `status` starts as
`"NORMAL"`, an `if / else if` pair on the distance may replace it, and a
final *separate* `if` on the gas value overwrites whatever was set. -/
def classify (cfg : ThresholdConfig) (dist : ℚ) (gasValue : ℤ) : String :=
  let status := "NORMAL"
  let status := if dist < cfg.low_threshold then "BLOCKAGE WARNING"
    else if dist > cfg.high_threshold then "LEAKAGE DETECTED"
    else status
  if gasValue > cfg.gas_threshold then "GAS LEVEL HIGH" else status

/-- The distance the `loop` of `main.ino` computes from one echo outcome:
`distance_cm` applied to what `pulseIn` returned (lines 29–30). -/
def measuredDistance (echo : Option ℕ) : ℚ := distance_cm (pulseIn echo)

/-- The `status` string one `loop` pass of `main.ino` prints, as a function
of the echo outcome and the analog gas reading. -/
def loopStatus (echo : Option ℕ) (gasValue : ℤ) : String :=
  classify mainThresholds (measuredDistance echo) gasValue

/-- One observable side effect of the firmware.  The constructors up to
`delayMs` each embed one statement of `main.ino`; `armWatchdog` and
`feedWatchdog` exist only so that the spec's WatchdogSupervisor contract can
be stated over these traces — the firmware never emits them. -/
inductive FwAction where
  | serialBegin (baud : ℕ)
  | pinModeSet (pin : ℕ) (output : Bool)
  | pinWrite (pin : ℕ) (high : Bool)
  | delayMicros (us : ℕ)
  | pulseInEcho (pin : ℕ)
  | analogReadPin (pin : ℕ)
  | printLn (s : String)
  | printWaterLevel (cm : ℚ)
  | printGasLevel (g : ℤ)
  | printStatus (s : String)
  | delayMs (ms : ℕ)
  | armWatchdog
  | feedWatchdog
deriving DecidableEq

/-- The boot banner printed once by `setup` (main.ino line 16). -/
def bootMsg : String := "Smart Drainage Monitoring System Started..."

/-- The side effects of `setup` in `main.ino` (lines 9–17), in order. -/
def setupTrace : List FwAction :=
  [ .serialBegin 115200,
    .pinModeSet TRIG_PIN true,
    .pinModeSet ECHO_PIN false,
    .pinModeSet GAS_PIN false,
    .printLn bootMsg ]

/-- The side effects of one `loop` pass of `main.ino` (lines 19–61), in
order, as a function of the echo outcome and the analog gas reading. -/
def loopTrace (echo : Option ℕ) (gasValue : ℤ) : List FwAction :=
  [ .pinWrite TRIG_PIN false, .delayMicros 2,
    .pinWrite TRIG_PIN true, .delayMicros 10, .pinWrite TRIG_PIN false,
    .pulseInEcho ECHO_PIN,
    .analogReadPin GAS_PIN,
    .printLn "----------",
    .printWaterLevel (measuredDistance echo),
    .printGasLevel gasValue,
    .printStatus (loopStatus echo gasValue),
    .delayMs 2000 ]

/-- The water-level values a trace prints (`Serial.print("Water Level (cm): ")`
followed by `Serial.println(distance_cm)`). -/
def waterLevelsOf (tr : List FwAction) : List ℚ :=
  tr.filterMap fun a => match a with
    | .printWaterLevel q => some q
    | _ => none

/-! ### Embedding of `src/unnamed/part_000` (first sketch: `checkSensors`) -/

/-- A JSON field value as used by the `checkSensors` sketch. -/
inductive JsonVal where
  | num (q : ℚ)
  | int (n : ℤ)
  | bool (b : Bool)
deriving DecidableEq

/-- part_000 line 20: `const int distanceThreshold = 30; // in cm`. -/
def distanceThreshold : ℚ := 30

/-- part_000 line 21: `const int gasThreshold = 400;`. -/
def gasThreshold : ℤ := 400

/-- What one `checkSensors` call produces: the anomaly flag, the serial log
lines, and the JSON document (an ordered field list). -/
structure CheckResult where
  anomalyDetected : Bool
  logs : List String
  doc : List (String × JsonVal)
deriving DecidableEq

/-- part_000 lines 38–64: `checkSensors`.  `anomalyDetected` starts false and
two *independent* `if`s may set it (each also printing a log line); the JSON
document carries exactly the fields `distance`, `gasValue`,
`anomalyDetected`. -/
def checkSensors (distance : ℚ) (gasValue : ℤ) : CheckResult :=
  let anomaly : Bool := false
  let anomaly := if distance < distanceThreshold then true else anomaly
  let logs : List String :=
    if distance < distanceThreshold then ["Anomaly Detected: Flood risk"] else []
  let anomaly := if gasValue > gasThreshold then true else anomaly
  let logs := logs ++ (if gasValue > gasThreshold then ["Anomaly Detected: Gas leakage"] else [])
  { anomalyDetected := anomaly
    logs := logs
    doc := [("distance", .num distance), ("gasValue", .int gasValue),
            ("anomalyDetected", .bool anomaly)] }

/-- The distance computation of the second sketch in `src/unnamed/part_000`
(lines 95, 101–102): `long distance; … distance = (duration * 0.034) / 2;` —
the double result is truncated into a `long`; the value is nonnegative, so
truncation toward zero is the floor. -/
def variantDistance (duration : ℕ) : ℤ := ⌊(duration : ℚ) * 0.034 / 2⌋

/-! ### Components present only in the spec (no code in the repository) -/

/-- The spec's FilteredDistance (§3): a median over the valid samples of a
batch, or the sentinel `allInvalid` when every sample of the batch was
invalid. -/
inductive FilteredDistance where
  | allInvalid
  | valid (cm : ℚ)
deriving DecidableEq

/-- Modelled from the spec: MedianFilter (§4.2) has no implementation
anywhere in the repository's code.  Per the spec text: the batch's samples
(`none` = Invalid) are sorted with Invalid sorting lowest and the leading
Invalid run partitioned out — equivalently, the valid samples are kept and
insertion-sorted (§9 prescribes insertion sort); if all samples are Invalid
the result is `allInvalid`, otherwise the element of the valid run at index
`valid_count / 2` (upper-middle on an even count). -/
def medianFilter (batch : List (Option ℚ)) : FilteredDistance :=
  let validRun := (batch.filterMap id).insertionSort (· ≤ ·)
  if h : validRun = [] then .allInvalid
  else .valid (validRun.get ⟨validRun.length / 2,
    Nat.div_lt_self (List.length_pos.mpr h) one_lt_two⟩)

/-- The upper-middle order statistic, stated without reference to any
particular sorting algorithm: `m` occurs in `l`, fewer than or exactly
`l.length / 2` elements of `l` lie strictly below `m`, and at most
`(l.length - 1) / 2` lie strictly above.  These rank bounds pin `m` to the
value found at index `l.length / 2` of any `≤`-sorted rearrangement of `l`
(see `IsMedianOf_unique`). -/
def IsMedianOf (m : ℚ) (l : List ℚ) : Prop :=
  m ∈ l ∧ (l.countP fun x => decide (x < m)) ≤ l.length / 2 ∧
    (l.countP fun x => decide (m < x)) ≤ (l.length - 1) / 2

/-- Modelled from the spec: the ExponentialSmoother's α (§4.4, recommended
0.2); no smoother exists in the repository's code. -/
def smoothingAlpha : ℚ := 0.2

/-- Modelled from the spec: ExponentialSmoother.update (§4.4) has no
implementation anywhere in the repository's code.  The persistent state is
`none` before the first call (seeded to the raw input) and `some prev`
afterwards, updated to `α·raw + (1−α)·prev`. -/
def smootherUpdate (smoothed : Option ℚ) (raw : ℚ) : ℚ :=
  match smoothed with
  | none => raw
  | some prev => smoothingAlpha * raw + (1 - smoothingAlpha) * prev

/-! ### Theorems -/

/-- Claim C1: for every distance, gas value, and (well-formed, low ≤ high)
threshold configuration, the `main.ino` anomaly logic returns
`BLOCKAGE WARNING` when the distance is below the low threshold,
`LEAKAGE DETECTED` when it is above the high threshold, `NORMAL` when
neither distance bound nor the gas bound is crossed, and — because the gas
check is evaluated last and overwrites — `GAS LEVEL HIGH` whenever the gas
value exceeds the gas threshold, regardless of the distance. -/
theorem classify_cases (cfg : ThresholdConfig) (d : ℚ) (g : ℤ)
    (hcfg : cfg.low_threshold ≤ cfg.high_threshold) :
    (cfg.gas_threshold < g → classify cfg d g = "GAS LEVEL HIGH") ∧
    (g ≤ cfg.gas_threshold → d < cfg.low_threshold →
      classify cfg d g = "BLOCKAGE WARNING") ∧
    (g ≤ cfg.gas_threshold → cfg.high_threshold < d →
      classify cfg d g = "LEAKAGE DETECTED") ∧
    (g ≤ cfg.gas_threshold → cfg.low_threshold ≤ d → d ≤ cfg.high_threshold →
      classify cfg d g = "NORMAL") := by
  refine ⟨fun hg => ?_, fun hg hd => ?_, fun hg hd => ?_, fun hg hd1 hd2 => ?_⟩ <;>
    simp only [classify, gt_iff_lt] <;>
    split_ifs <;> first | rfl | linarith

/-- Witness for C1 at the code's own thresholds (10/100/2500), matching the
spec's scenarios A–D. -/
theorem classify_cases_witness :
    classify mainThresholds 50 2600 = "GAS LEVEL HIGH" ∧
    classify mainThresholds 8 300 = "BLOCKAGE WARNING" ∧
    classify mainThresholds 150 300 = "LEAKAGE DETECTED" ∧
    classify mainThresholds 50 300 = "NORMAL" := by
  have h1 := classify_cases mainThresholds 50 2600 (by norm_num [mainThresholds])
  have h2 := classify_cases mainThresholds 8 300 (by norm_num [mainThresholds])
  have h3 := classify_cases mainThresholds 150 300 (by norm_num [mainThresholds])
  have h4 := classify_cases mainThresholds 50 300 (by norm_num [mainThresholds])
  exact ⟨h1.1 (by norm_num [mainThresholds]),
    h2.2.1 (by norm_num [mainThresholds]) (by norm_num [mainThresholds]),
    h3.2.2.1 (by norm_num [mainThresholds]) (by norm_num [mainThresholds]),
    h4.2.2.2 (by norm_num [mainThresholds]) (by norm_num [mainThresholds])
      (by norm_num [mainThresholds])⟩

/-- Claim C2 is false on the code: a timed-out `pulseIn` call returns `0`
(there is no Invalid sentinel anywhere in `main.ino`), so the measurement
yields the numeric distance `0` — exactly the value a genuine 0 µs echo
yields, not a sentinel distinguishable from numeric distances. -/
theorem measure_timeout_counterexample :
    measuredDistance none = measuredDistance (some 0) ∧ measuredDistance none = 0 := by
  constructor
  · rfl
  · norm_num [measuredDistance, pulseIn, distance_cm]

/-- Claim C2 as amended: when no echo pulse arrives within the timeout,
`pulseIn` returns `0` and the measurement produces the numeric distance `0`
(no Invalid sentinel exists in the code); the iteration is not aborted — the
loop pass still prints its full record and reaches the terminal delay. -/
theorem measure_timeout_amended (g : ℤ) :
    pulseIn none = 0 ∧ measuredDistance none = 0 ∧
    FwAction.printWaterLevel 0 ∈ loopTrace none g ∧
    FwAction.printStatus (loopStatus none g) ∈ loopTrace none g ∧
    FwAction.delayMs 2000 ∈ loopTrace none g := by
  have h0 : measuredDistance none = 0 := by
    norm_num [measuredDistance, pulseIn, distance_cm]
  refine ⟨rfl, h0, ?_, ?_, ?_⟩ <;> simp [loopTrace, h0]

/-- Claim C4 is false on the code: the conversion constant in
`main.ino` line 30 is `0.034`, not `0.0343`; at a 1000 µs echo the code
reports 17 cm while the claimed formula gives 17.15 cm. -/
theorem conversion_constant_counterexample :
    distance_cm 1000 = 17 ∧ (1000 : ℚ) * 0.0343 / 2 = 343 / 20 ∧
    (17 : ℚ) ≠ 343 / 20 := by
  norm_num [distance_cm]

/-- Claim C4 as amended: for every measured echo duration `d` µs the
reported distance is `d * 0.034 / 2` centimeters, i.e. `17·d/1000` cm (the
conversion constant in the code is 0.034 cm/µs); the second sketch in
`part_000` computes the same value truncated into a `long`. -/
theorem conversion_constant_amended (d : ℕ) :
    distance_cm d = (d : ℚ) * 0.034 / 2 ∧
    distance_cm d = 17 * (d : ℚ) / 1000 ∧
    variantDistance d = ⌊17 * (d : ℚ) / 1000⌋ := by
  refine ⟨rfl, ?_, ?_⟩
  · norm_num [distance_cm]; ring
  · norm_num [variantDistance]; ring_nf

/-- Claim C6 (spec-modelled — no smoother exists in the repository's code):
the first update after boot returns exactly the raw input `R`; every
subsequent update computes `α·R + (1−α)·prev`; and a repeated identical
input is a fixed point — updating from the seeded state with the same `R`
again returns exactly `R`. -/
theorem smootherUpdate_spec (R prev : ℚ) :
    smootherUpdate none R = R ∧
    smootherUpdate (some prev) R = smoothingAlpha * R + (1 - smoothingAlpha) * prev ∧
    smootherUpdate (some (smootherUpdate none R)) R = R := by
  refine ⟨rfl, rfl, ?_⟩
  show smoothingAlpha * R + (1 - smoothingAlpha) * R = R
  ring

/-- Claim C9: in `main.ino`, a timed-out echo measurement makes `pulseIn`
return `0`, so `distance_cm` is computed as `0`, which satisfies
`distance_cm < 10`; unless the gas override fires the iteration's status is
`BLOCKAGE WARNING`, and the whole observable trace of the iteration is
identical to that of a genuine 0 µs echo — a ranging-sensor timeout is
indistinguishable in the output from a blockage alarm. -/
theorem timeout_reads_as_blockage (g : ℤ) :
    pulseIn none = 0 ∧ measuredDistance none = 0 ∧
    (g ≤ 2500 → loopStatus none g = "BLOCKAGE WARNING") ∧
    loopTrace none g = loopTrace (some 0) g := by
  have h0 : measuredDistance none = 0 := by
    norm_num [measuredDistance, pulseIn, distance_cm]
  refine ⟨rfl, h0, fun hg => ?_, rfl⟩
  simp only [loopStatus, classify, h0, mainThresholds, gt_iff_lt]
  rw [if_neg (by omega), if_pos (by norm_num)]

/-- Witness for C9 at the concrete gas reading 300. -/
theorem timeout_reads_as_blockage_witness :
    pulseIn none = 0 ∧ measuredDistance none = 0 ∧
    loopStatus none 300 = "BLOCKAGE WARNING" ∧
    loopTrace none 300 = loopTrace (some 0) 300 := by
  have h := timeout_reads_as_blockage 300
  exact ⟨h.1, h.2.1, h.2.2.1 (by norm_num), h.2.2.2⟩

/-- Claim C3 is false on the code: `main.ino` has no AllInvalid sentinel and
no median batch — the one ranging sample per iteration, when it times out
(the all-samples-invalid situation), enters the classifier as the numeric
distance `0`, and with a quiet gas reading (here 100) the status is
`BLOCKAGE WARNING`, a distance-derived alarm. -/
theorem allInvalid_counterexample :
    loopStatus none 100 = "BLOCKAGE WARNING" := by
  have h0 : measuredDistance none = 0 := by
    norm_num [measuredDistance, pulseIn, distance_cm]
  simp only [loopStatus, classify, h0, mainThresholds, gt_iff_lt]
  rw [if_neg (by omega), if_pos (by norm_num)]

/-- Claim C3 as amended: the firmware computes no AllInvalid sentinel; an
iteration whose ranging measurement times out feeds distance `0` to the
threshold logic, yielding `BLOCKAGE WARNING` when the gas check does not
fire and `GAS LEVEL HIGH` when it does; the iteration still completes and
still emits its telemetry prints. -/
theorem allInvalid_amended (g : ℤ) :
    (g ≤ 2500 → loopStatus none g = "BLOCKAGE WARNING") ∧
    (2500 < g → loopStatus none g = "GAS LEVEL HIGH") ∧
    FwAction.printWaterLevel (measuredDistance none) ∈ loopTrace none g ∧
    FwAction.printStatus (loopStatus none g) ∈ loopTrace none g := by
  have h0 : measuredDistance none = 0 := by
    norm_num [measuredDistance, pulseIn, distance_cm]
  refine ⟨fun hg => ?_, fun hg => ?_, by simp [loopTrace], by simp [loopTrace]⟩
  · simp only [loopStatus, classify, h0, mainThresholds, gt_iff_lt]
    rw [if_neg (by omega), if_pos (by norm_num)]
  · simp only [loopStatus, classify, h0, mainThresholds, gt_iff_lt]
    rw [if_pos (by omega)]

/-- Witness for the amended C3, at the gas readings 0 and 2600. -/
theorem allInvalid_amended_witness :
    loopStatus none 0 = "BLOCKAGE WARNING" ∧
    loopStatus none 2600 = "GAS LEVEL HIGH" ∧
    FwAction.printWaterLevel (measuredDistance none) ∈ loopTrace none 0 ∧
    FwAction.printStatus (loopStatus none 0) ∈ loopTrace none 0 := by
  have h1 := allInvalid_amended 0
  have h2 := allInvalid_amended 2600
  exact ⟨h1.1 (by norm_num), h2.2.1 (by norm_num), h1.2.2.1, h1.2.2.2⟩

/-- Claim C7 is false on the code: on an all-timed-out iteration `main.ino`
prints the water level `0`, not a negative sentinel — the single
water-level value of the trace is `0`, which is not negative. -/
theorem telemetry_sentinel_counterexample :
    waterLevelsOf (loopTrace none 300) = [0] ∧ ¬ (0 : ℚ) < 0 := by
  have h0 : measuredDistance none = 0 := by
    norm_num [measuredDistance, pulseIn, distance_cm]
  constructor
  · simp [waterLevelsOf, loopTrace, h0]
  · norm_num

/-- Claim C7 as amended: an iteration whose ranging measurement times out
emits `0` (printed as `0.00`) in the water-level field — no negative
sentinel exists in the code — and the iteration still completes and still
emits its record. -/
theorem telemetry_sentinel_amended (g : ℤ) :
    waterLevelsOf (loopTrace none g) = [0] ∧
    FwAction.printGasLevel g ∈ loopTrace none g ∧
    FwAction.printStatus (loopStatus none g) ∈ loopTrace none g ∧
    FwAction.delayMs 2000 ∈ loopTrace none g := by
  have h0 : measuredDistance none = 0 := by
    norm_num [measuredDistance, pulseIn, distance_cm]
  refine ⟨by simp [waterLevelsOf, loopTrace, h0], ?_, ?_, ?_⟩ <;> simp [loopTrace]

/-- Claim C8 is false on the code: `main.ino` never touches a watchdog — a
concrete loop iteration contains zero `feedWatchdog` actions (the claim
requires exactly one) and `setup` contains zero `armWatchdog` actions. -/
theorem watchdog_counterexample :
    (loopTrace (some 580) 300).count FwAction.feedWatchdog = 0 ∧
    setupTrace.count FwAction.armWatchdog = 0 := by
  constructor <;> decide

/-- Claim C8 as amended: the firmware arms no watchdog and feeds none in any
loop iteration; each boot emits exactly one boot record (the banner printed
by `setup`) before regular telemetry, and no loop iteration ever re-emits
it. -/
theorem watchdog_amended (echo : Option ℕ) (g : ℤ) :
    setupTrace.count FwAction.armWatchdog = 0 ∧
    (loopTrace echo g).count FwAction.feedWatchdog = 0 ∧
    setupTrace.count (FwAction.printLn bootMsg) = 1 ∧
    FwAction.printLn bootMsg ∉ loopTrace echo g := by
  refine ⟨by decide, ?_, by decide, ?_⟩
  · rw [List.count_eq_zero]
    simp [loopTrace]
  · simp [loopTrace, bootMsg]

/-- Claim C10: in the `checkSensors` variant, anomaly reporting is a single
boolean — `anomalyDetected` is true iff the distance is below 30 or the gas
value is above 400; both conditions can fire and be logged in the same
iteration with neither overriding the other; and the emitted JSON record
carries exactly the fields `distance`, `gasValue`, `anomalyDetected`. -/
theorem checkSensors_spec (distance : ℚ) (gasValue : ℤ) :
    ((checkSensors distance gasValue).anomalyDetected = true ↔
      (distance < 30 ∨ 400 < gasValue)) ∧
    (distance < 30 →
      "Anomaly Detected: Flood risk" ∈ (checkSensors distance gasValue).logs) ∧
    (400 < gasValue →
      "Anomaly Detected: Gas leakage" ∈ (checkSensors distance gasValue).logs) ∧
    ((checkSensors distance gasValue).doc.map Prod.fst =
      ["distance", "gasValue", "anomalyDetected"]) := by
  refine ⟨?_, fun h => ?_, fun h => ?_, by simp [checkSensors]⟩
  · simp only [checkSensors, distanceThreshold, gasThreshold, gt_iff_lt]
    split_ifs <;> simp_all
  · simp [checkSensors, distanceThreshold, h]
  · simp [checkSensors, gasThreshold, h]

/-- Witness for C10 at distance 10 cm and gas 500: both conditions fire in
the same iteration and both log lines are present. -/
theorem checkSensors_spec_witness :
    ((checkSensors 10 500).anomalyDetected = true ↔
      ((10 : ℚ) < 30 ∨ (400 : ℤ) < 500)) ∧
    "Anomaly Detected: Flood risk" ∈ (checkSensors 10 500).logs ∧
    "Anomaly Detected: Gas leakage" ∈ (checkSensors 10 500).logs ∧
    (checkSensors 10 500).doc.map Prod.fst =
      ["distance", "gasValue", "anomalyDetected"] := by
  have h := checkSensors_spec 10 500
  exact ⟨h.1, h.2.1 (by norm_num), h.2.2.1 (by norm_num), h.2.2.2⟩

/-- In a `≤`-sorted list at most `k` elements lie strictly below the element
at index `k`: every element from index `k` onward is at least that element. -/
theorem sorted_countP_lt_le (L : List ℚ) (hs : L.Sorted (· ≤ ·)) (k : Fin L.length) :
    (L.countP fun x => decide (x < L.get k)) ≤ k.val := by
  have hsplit : L.take k.val ++ L.drop k.val = L := List.take_append_drop _ _
  have hdrop : (L.drop k.val).countP (fun x => decide (x < L.get k)) = 0 := by
    refine List.countP_eq_zero.mpr fun a ha => ?_
    have hd : L.drop k.val = L.get k :: L.drop (k.val + 1) := by
      rw [List.drop_eq_getElem_cons k.isLt, List.get_eq_getElem]
    have hs' : (L.drop k.val).Sorted (· ≤ ·) := List.Pairwise.drop hs
    rw [hd] at ha hs'
    have hma : L.get k ≤ a := by
      rcases List.mem_cons.mp ha with rfl | ha'
      · exact le_rfl
      · exact (List.sorted_cons.mp hs').1 a ha'
    simpa using not_lt.mpr hma
  calc (L.countP fun x => decide (x < L.get k))
      = ((L.take k.val).countP fun x => decide (x < L.get k)) +
        ((L.drop k.val).countP fun x => decide (x < L.get k)) := by
        rw [← List.countP_append, hsplit]
    _ ≤ (L.take k.val).length + 0 := by
        rw [hdrop]
        exact Nat.add_le_add_right (List.countP_le_length _) 0
    _ ≤ k.val := by
        simp [List.length_take]

/-- In a `≤`-sorted list at most `length − 1 − k` elements lie strictly above
the element at index `k`: every element up to index `k` is at most it. -/
theorem sorted_countP_gt_le (L : List ℚ) (hs : L.Sorted (· ≤ ·)) (k : Fin L.length) :
    (L.countP fun x => decide (L.get k < x)) ≤ L.length - 1 - k.val := by
  have hsplit : L.take (k.val + 1) ++ L.drop (k.val + 1) = L := List.take_append_drop _ _
  have htake : (L.take (k.val + 1)).countP (fun x => decide (L.get k < x)) = 0 := by
    refine List.countP_eq_zero.mpr fun a ha => ?_
    obtain ⟨j, hj, rfl⟩ := List.mem_iff_getElem.mp ha
    have hjk : j ≤ k.val := by
      have hj' := hj
      simp only [List.length_take] at hj'
      omega
    have hjL : j < L.length := lt_of_le_of_lt hjk k.isLt
    rw [List.getElem_take]
    have hle : L[j] ≤ L.get k := by
      have h2 := hs.rel_get_of_le (a := (⟨j, hjL⟩ : Fin L.length)) (b := k)
        (by simpa [Fin.le_def] using hjk)
      simpa using h2
    simpa using not_lt.mpr hle
  calc (L.countP fun x => decide (L.get k < x))
      = ((L.take (k.val + 1)).countP fun x => decide (L.get k < x)) +
        ((L.drop (k.val + 1)).countP fun x => decide (L.get k < x)) := by
        rw [← List.countP_append, hsplit]
    _ ≤ 0 + (L.drop (k.val + 1)).length := by
        rw [htake]
        exact Nat.add_le_add_left (List.countP_le_length _) 0
    _ ≤ L.length - 1 - k.val := by
        simp only [List.length_drop]
        omega

/-- Splitting a count at a pivot: the elements above `m` and the elements at
most `m` exhaust the list. -/
theorem countP_lt_add_countP_le (m : ℚ) (l : List ℚ) :
    (l.countP fun x => decide (m < x)) + (l.countP fun x => decide (x ≤ m)) = l.length := by
  induction l with
  | nil => rfl
  | cons a t ih =>
    by_cases h : m < a
    · simp only [List.countP_cons, decide_eq_true_eq, if_pos h, if_neg (not_le.mpr h),
        List.length_cons]
      omega
    · simp only [List.countP_cons, decide_eq_true_eq, if_neg h, if_pos (not_lt.mp h),
        List.length_cons]
      omega

/-- The rank bounds of `IsMedianOf` pin the median value down uniquely. -/
theorem IsMedianOf_unique (l : List ℚ) (m m' : ℚ)
    (h : IsMedianOf m l) (h' : IsMedianOf m' l) : m = m' := by
  have key : ∀ a b : ℚ, IsMedianOf a l → IsMedianOf b l → a < b → False := by
    intro a b ha hb hab
    obtain ⟨hmem, _, hhigh⟩ := ha
    obtain ⟨_, hlow', _⟩ := hb
    have hn : 1 ≤ l.length := List.length_pos.mpr (List.ne_nil_of_mem hmem)
    have hsum := countP_lt_add_countP_le a l
    have hmono : (l.countP fun x => decide (x ≤ a)) ≤ (l.countP fun x => decide (x < b)) :=
      List.countP_mono_left fun c _ hc => by
        simp only [decide_eq_true_eq] at hc ⊢
        exact lt_of_le_of_lt hc hab
    omega
  rcases lt_trichotomy m m' with hlt | heq | hlt
  · exact (key m m' h h' hlt).elim
  · exact heq
  · exact (key m' m h' h hlt).elim

/-- Helper: whenever `medianFilter` returns a valid value, that value is the
upper-middle order statistic of the batch's valid samples. -/
theorem medianFilter_valid_isMedian (batch : List (Option ℚ)) (m : ℚ)
    (h : medianFilter batch = .valid m) : IsMedianOf m (batch.filterMap id) := by
  simp only [medianFilter] at h
  set valid : List ℚ := batch.filterMap id with hv
  set L : List ℚ := valid.insertionSort (· ≤ ·) with hLdef
  have hperm : L.Perm valid := List.perm_insertionSort _ _
  have hsorted : L.Sorted (· ≤ ·) := List.sorted_insertionSort _ _
  by_cases hnil : L = []
  · rw [dif_pos hnil] at h
    exact absurd h (by simp)
  · rw [dif_neg hnil] at h
    have hlt : L.length / 2 < L.length :=
      Nat.div_lt_self (List.length_pos.mpr hnil) one_lt_two
    injection h with hm
    subst hm
    have hlen : L.length = valid.length := hperm.length_eq
    refine ⟨?_, ?_, ?_⟩
    · exact hperm.subset (List.get_mem _ _ _)
    · rw [← hperm.countP_eq, ← hlen]
      exact sorted_countP_lt_le L hsorted ⟨L.length / 2, hlt⟩
    · rw [← hperm.countP_eq, ← hlen]
      refine le_trans (sorted_countP_gt_le L hsorted ⟨L.length / 2, hlt⟩) ?_
      show L.length - 1 - L.length / 2 ≤ (L.length - 1) / 2
      omega

/-- Claim C5 (spec-modelled — no MedianFilter exists in the repository's
code): a batch of all-valid samples yields the exact statistical median of
the batch (upper-middle element on an even count); a batch with invalid
entries yields the median over only the valid samples, the element of rank
`valid_count / 2` (the upper-middle) on an even valid count; and a batch
whose samples are all invalid yields `allInvalid`.  `IsMedianOf` states the
median property by rank bounds, which pin the value uniquely
(`IsMedianOf_unique`). -/
theorem medianFilter_spec :
    (∀ l : List ℚ, l ≠ [] →
      ∃ m, medianFilter (l.map some) = .valid m ∧ IsMedianOf m l) ∧
    (∀ batch : List (Option ℚ), ∀ m, medianFilter batch = .valid m →
      IsMedianOf m (batch.filterMap id)) ∧
    (∀ batch : List (Option ℚ),
      medianFilter batch = .allInvalid ↔ batch.filterMap id = []) := by
  refine ⟨?_, fun batch m h => medianFilter_valid_isMedian batch m h, ?_⟩
  · intro l hl
    have hval : (l.map some).filterMap id = l := by simp
    have hnil : ((l.map some).filterMap id).insertionSort (· ≤ ·) ≠ [] := by
      intro hcon
      have hlen := (List.perm_insertionSort (· ≤ ·) ((l.map some).filterMap id)).length_eq
      rw [hcon, hval] at hlen
      exact hl (List.eq_nil_of_length_eq_zero hlen.symm)
    obtain ⟨m, hm⟩ : ∃ m, medianFilter (l.map some) = .valid m := by
      simp only [medianFilter]
      rw [dif_neg hnil]
      exact ⟨_, rfl⟩
    exact ⟨m, hm, hval ▸ medianFilter_valid_isMedian _ m hm⟩
  · intro batch
    constructor
    · intro h
      by_cases hnil : (batch.filterMap id).insertionSort (· ≤ ·) = []
      · have hlen := (List.perm_insertionSort (· ≤ ·) (batch.filterMap id)).length_eq
        rw [hnil] at hlen
        exact List.eq_nil_of_length_eq_zero hlen.symm
      · simp only [medianFilter] at h
        rw [dif_neg hnil] at h
        exact absurd h (by simp)
    · intro h
      have hnil : (batch.filterMap id).insertionSort (· ≤ ·) = [] := by
        rw [h]
        rfl
      simp only [medianFilter]
      rw [dif_pos hnil]

/-- Witness for C5: an all-valid batch, a batch with one invalid entry, and
an all-invalid batch. -/
theorem medianFilter_spec_witness :
    (∃ m, medianFilter ([3, 1, 2].map some) = .valid m ∧ IsMedianOf m [3, 1, 2]) ∧
    IsMedianOf 6 ([some 6, none, some 4].filterMap id) ∧
    (medianFilter [none, none] = .allInvalid ↔
      ([none, none] : List (Option ℚ)).filterMap id = []) := by
  refine ⟨medianFilter_spec.1 [3, 1, 2] (by decide),
    medianFilter_spec.2.1 [some 6, none, some 4] 6 (by decide),
    medianFilter_spec.2.2 [none, none]⟩

/-- Witness for the amended C8 at a concrete iteration. -/
theorem watchdog_amended_witness :
    setupTrace.count FwAction.armWatchdog = 0 ∧
    (loopTrace (some 42) 7).count FwAction.feedWatchdog = 0 ∧
    setupTrace.count (FwAction.printLn bootMsg) = 1 ∧
    FwAction.printLn bootMsg ∉ loopTrace (some 42) 7 :=
  watchdog_amended (some 42) 7
